import Mathlib

/-!
# IPFS peers settings subpage (`ipfs_peers_subpage.js`)

A shallow embedding of the Polymer element `settings-ipfs-peers-subpage`:
its property record, its handlers, the callbacks it hands to the browser
proxy promises, and the built-in `JSON.parse` that the list-keys callback
applies to the proxy result.

Handlers and callbacks are functions from the panel state to an `Outcome`:
the state after the function body has run, the proxy calls it issued (in
order) and how the body completed (normally, or by a thrown exception).
-/

namespace IpfsPeers

/-! ## JavaScript values -/

/-- A JavaScript string, as its sequence of UTF-16 code units. -/
abbrev JsString := List Nat

/-- Code units of a string literal; a character outside the basic plane
becomes a surrogate pair. -/
def utf16 (s : String) : JsString :=
  s.toList.flatMap fun c =>
    if c.toNat < 0x10000 then [c.toNat]
    else [0xD800 + (c.toNat - 0x10000) / 0x400, 0xDC00 + (c.toNat - 0x10000) % 0x400]

/-- The values `JSON.parse` can return. A number is kept as the text of its
literal (nothing in the panel reads a numeric value); an object is kept as
its members in source order. -/
inductive JsValue where
  | null
  | bool (b : Bool)
  | num (literal : JsString)
  | str (s : JsString)
  | arr (elems : List JsValue)
  | obj (members : List (JsString × JsValue))

/-- What a proxy promise for a string can resolve with: a string, or
`null` / `undefined` on failure. -/
inductive JsResult where
  | null
  | undefined
  | str (s : JsString)
deriving DecidableEq

/-- JavaScript `!x` on such a value: `null`, `undefined` and the empty string
are falsy, every other string is truthy. -/
def JsResult.not : JsResult → Bool
  | .null => true
  | .undefined => true
  | .str [] => true
  | .str (_ :: _) => false

/-- The conversion to a string that `JSON.parse` applies to its argument. -/
def JsResult.toText : JsResult → JsString
  | .null => utf16 "null"
  | .undefined => utf16 "undefined"
  | .str s => s

/-- The exceptions a body can throw. -/
inductive JsError where
  | syntaxError
deriving DecidableEq

/-- How a function body ended. -/
inductive Completion where
  | normal
  | throw (e : JsError)
deriving DecidableEq

/-! ## `JSON.parse`

The JSON grammar of ECMA-404, which `JSON.parse` accepts: one value
surrounded by optional whitespace. The parser is a pushdown machine run over
the code units of the text, so it is total by recursion on the text. -/

namespace JSON

/-- A container that is being read: what has been collected so far, newest
first. An object also holds the member name that awaits its value. -/
inductive Frame where
  | arr (acc : List JsValue)
  | obj (acc : List (JsString × JsValue)) (key : Option JsString)

/-- Position inside a number literal. -/
inductive NumState where
  | minus
  | zero
  | int
  | dot
  | frac
  | e
  | esign
  | exp
deriving DecidableEq

/-- What the machine expects next. -/
inductive Mode where
  | value (closeOk : Bool)
  | key (closeOk : Bool)
  | colon
  | after
  | done (v : JsValue)
  | string (isKey : Bool) (acc : JsString)
  | escape (isKey : Bool) (acc : JsString)
  | unicode (isKey : Bool) (acc : JsString) (count : Nat) (code : Nat)
  | literal (rest : JsString) (v : JsValue)
  | number (st : NumState) (lit : JsString)

/-- State of the machine: the open containers, innermost first, and the mode. -/
structure Parser where
  stack : List Frame
  mode : Mode

def isWs (c : Nat) : Bool := c == 0x20 || c == 0x09 || c == 0x0A || c == 0x0D

def isDigit (c : Nat) : Bool := 0x30 ≤ c && c ≤ 0x39

def hexDigit (c : Nat) : Option Nat :=
  if 0x30 ≤ c && c ≤ 0x39 then some (c - 0x30)
  else if 0x41 ≤ c && c ≤ 0x46 then some (c - 0x41 + 10)
  else if 0x61 ≤ c && c ≤ 0x66 then some (c - 0x61 + 10)
  else none

/-- A value `v` has been read completely: hand it to the innermost open
container, or finish when there is none. -/
def complete (v : JsValue) : List Frame → Option Parser
  | [] => some ⟨[], .done v⟩
  | .arr acc :: rest => some ⟨.arr (v :: acc) :: rest, .after⟩
  | .obj acc (some k) :: rest => some ⟨.obj ((k, v) :: acc) none :: rest, .after⟩
  | .obj _ none :: _ => none

/-- Close the innermost container with `]` (`isArr`) or `}`. -/
def close (isArr : Bool) : List Frame → Option Parser
  | .arr acc :: rest => if isArr then complete (.arr acc.reverse) rest else none
  | .obj acc none :: rest => if isArr then none else complete (.obj acc.reverse) rest
  | _ => none

/-- One code unit read after a complete value. -/
def stepAfter (p : Parser) (c : Nat) : Option Parser :=
  match p.mode with
  | .done v => if isWs c then some ⟨p.stack, .done v⟩ else none
  | .after =>
    if isWs c then some p
    else if c == 0x2C then
      match p.stack with
      | .arr _ :: _ => some ⟨p.stack, .value false⟩
      | .obj _ _ :: _ => some ⟨p.stack, .key false⟩
      | [] => none
    else if c == 0x5D then close true p.stack
    else if c == 0x7D then close false p.stack
    else none
  | _ => none

/-- A string has been read completely: a member name goes to the open
object, any other string is a value. -/
def endString (isKey : Bool) (s : JsString) (stack : List Frame) : Option Parser :=
  if isKey then
    match stack with
    | .obj acc none :: rest => some ⟨.obj acc (some s) :: rest, .colon⟩
    | _ => none
  else complete (.str s) stack

/-- A number literal ends before the code unit `c`. -/
def endNumber (lit : JsString) (stack : List Frame) (c : Nat) : Option Parser :=
  (complete (.num lit.reverse) stack).bind fun p => stepAfter p c

/-- One code unit inside a number literal. -/
def stepNumber (stack : List Frame) (st : NumState) (lit : JsString) (c : Nat) :
    Option Parser :=
  let isE := c == 0x65 || c == 0x45
  match st with
  | .minus =>
    if c == 0x30 then some ⟨stack, .number .zero (c :: lit)⟩
    else if isDigit c then some ⟨stack, .number .int (c :: lit)⟩
    else none
  | .zero =>
    if c == 0x2E then some ⟨stack, .number .dot (c :: lit)⟩
    else if isE then some ⟨stack, .number .e (c :: lit)⟩
    else endNumber lit stack c
  | .int =>
    if isDigit c then some ⟨stack, .number .int (c :: lit)⟩
    else if c == 0x2E then some ⟨stack, .number .dot (c :: lit)⟩
    else if isE then some ⟨stack, .number .e (c :: lit)⟩
    else endNumber lit stack c
  | .dot => if isDigit c then some ⟨stack, .number .frac (c :: lit)⟩ else none
  | .frac =>
    if isDigit c then some ⟨stack, .number .frac (c :: lit)⟩
    else if isE then some ⟨stack, .number .e (c :: lit)⟩
    else endNumber lit stack c
  | .e =>
    if c == 0x2B || c == 0x2D then some ⟨stack, .number .esign (c :: lit)⟩
    else if isDigit c then some ⟨stack, .number .exp (c :: lit)⟩
    else none
  | .esign => if isDigit c then some ⟨stack, .number .exp (c :: lit)⟩ else none
  | .exp =>
    if isDigit c then some ⟨stack, .number .exp (c :: lit)⟩
    else endNumber lit stack c

/-- One code unit where a value may start. -/
def stepValue (stack : List Frame) (closeOk : Bool) (c : Nat) : Option Parser :=
  if isWs c then some ⟨stack, .value closeOk⟩
  else if c == 0x5B then some ⟨.arr [] :: stack, .value true⟩
  else if c == 0x5D then (if closeOk then close true stack else none)
  else if c == 0x7B then some ⟨.obj [] none :: stack, .key true⟩
  else if c == 0x22 then some ⟨stack, .string false []⟩
  else if c == 0x74 then some ⟨stack, .literal [0x72, 0x75, 0x65] (.bool true)⟩
  else if c == 0x66 then some ⟨stack, .literal [0x61, 0x6C, 0x73, 0x65] (.bool false)⟩
  else if c == 0x6E then some ⟨stack, .literal [0x75, 0x6C, 0x6C] .null⟩
  else if c == 0x2D then some ⟨stack, .number .minus [c]⟩
  else if c == 0x30 then some ⟨stack, .number .zero [c]⟩
  else if isDigit c then some ⟨stack, .number .int [c]⟩
  else none

/-- The code unit an escape letter stands for. -/
def escapeUnit (c : Nat) : Option Nat :=
  if c == 0x22 then some 0x22
  else if c == 0x5C then some 0x5C
  else if c == 0x2F then some 0x2F
  else if c == 0x62 then some 0x08
  else if c == 0x66 then some 0x0C
  else if c == 0x6E then some 0x0A
  else if c == 0x72 then some 0x0D
  else if c == 0x74 then some 0x09
  else none

/-- One code unit of the text. -/
def step (p : Parser) (c : Nat) : Option Parser :=
  match p.mode with
  | .value closeOk => stepValue p.stack closeOk c
  | .key closeOk =>
    if isWs c then some p
    else if c == 0x22 then some ⟨p.stack, .string true []⟩
    else if c == 0x7D then (if closeOk then close false p.stack else none)
    else none
  | .colon =>
    if isWs c then some p
    else if c == 0x3A then some ⟨p.stack, .value false⟩
    else none
  | .after => stepAfter p c
  | .done _ => stepAfter p c
  | .string isKey acc =>
    if c == 0x22 then endString isKey acc.reverse p.stack
    else if c == 0x5C then some ⟨p.stack, .escape isKey acc⟩
    else if c < 0x20 then none
    else some ⟨p.stack, .string isKey (c :: acc)⟩
  | .escape isKey acc =>
    if c == 0x75 then some ⟨p.stack, .unicode isKey acc 0 0⟩
    else (escapeUnit c).map fun u => ⟨p.stack, .string isKey (u :: acc)⟩
  | .unicode isKey acc count code =>
    (hexDigit c).map fun d =>
      if count + 1 == 4 then ⟨p.stack, .string isKey ((code * 16 + d) :: acc)⟩
      else ⟨p.stack, .unicode isKey acc (count + 1) (code * 16 + d)⟩
  | .literal rest v =>
    match rest with
    | [] => none
    | r :: rs =>
      if c == r then
        (if rs.isEmpty then complete v p.stack else some ⟨p.stack, .literal rs v⟩)
      else none
  | .number st lit => stepNumber p.stack st lit c

/-- Run the machine over the text. -/
def run : Parser → JsString → Option Parser
  | p, [] => some p
  | p, c :: cs => (step p c).bind fun q => run q cs

/-- The value at the end of the text, when the text ends where a value is
complete. -/
def finish (p : Parser) : Option JsValue :=
  match p.mode, p.stack with
  | .done v, _ => some v
  | .number st lit, [] =>
    if st == .zero || st == .int || st == .frac || st == .exp then some (.num lit.reverse)
    else none
  | _, _ => none

/-- The built-in `JSON.parse(text)`: the parsed value, or a `SyntaxError`. -/
def parse (text : JsString) : Except JsError JsValue :=
  match (run ⟨[], .value false⟩ text).bind finish with
  | some v => .ok v
  | none => .error .syntaxError

end JSON

/-! ## The panel -/

/-- A call on `browserProxy_`; each returns a promise. -/
inductive ProxyCall where
  | launchIPFSService
  | getIpnsKeysList
  | removeIpnsKey (name : JsString)
deriving DecidableEq

/-- The fields of the element: the declared `properties`, and `keys_`, the
field that `updatePeers` assigns. `keys_` is not among the declared
properties, so it is `undefined` (`none`) until it is first assigned. -/
structure PanelState where
  keys : List JsValue
  keys_ : Option JsValue
  localNodeMethod : Bool
  localNodeLaunched : Bool
  launchNodeButtonEnabled_ : Bool
  localNodeLaunchError_ : Bool
  importKeysError_ : Bool
  showAddPeerDialog_ : Bool

/-- The declared property defaults. -/
def defaults : PanelState where
  keys := []
  keys_ := none
  localNodeMethod := false
  localNodeLaunched := false
  launchNodeButtonEnabled_ := true
  localNodeLaunchError_ := false
  importKeysError_ := false
  showAddPeerDialog_ := false

/-- Result of running one handler or callback body. -/
structure Outcome where
  state : PanelState
  calls : List ProxyCall
  completion : Completion

/-- Body of `toggleUILayout(launched)`: three unconditional writes, then one
write chosen by `launched`. -/
def toggleUILayout (s : PanelState) (launched : Bool) : PanelState :=
  let s1 := { s with launchNodeButtonEnabled_ := !launched }
  let s2 := { s1 with localNodeLaunched := launched }
  let s3 := { s2 with importKeysError_ := false }
  if launched then { s3 with localNodeLaunchError_ := false }
  else { s3 with showAddPeerDialog_ := false }

def onServiceLaunched (s : PanelState) (success : Bool) : PanelState :=
  toggleUILayout s success

/-- The listener that `created` registers for
`brave-ipfs-node-status-changed`. -/
def statusChangedListener (s : PanelState) (launched : Bool) : Outcome :=
  ⟨onServiceLaunched s launched, [], .normal⟩

/-- Synchronous part of `onStartNodeKeyTap_`: the write and the proxy call. -/
def onStartNodeKeyTap_ (s : PanelState) : Outcome :=
  ⟨{ s with launchNodeButtonEnabled_ := false }, [.launchIPFSService], .normal⟩

/-- The `then` callback of `onStartNodeKeyTap_`, run when
`launchIPFSService` resolves with `success`. -/
def onStartNodeKeyTap_callback (s : PanelState) (success : Bool) : Outcome :=
  ⟨onServiceLaunched { s with localNodeLaunchError_ := !success } success, [], .normal⟩

def ready (s : PanelState) : Outcome :=
  ⟨onServiceLaunched s s.localNodeLaunched, [], .normal⟩

def isDefaultKey_ (name : JsString) : Bool := name == utf16 "self"

def onAddKeyTap_ (s : PanelState) : Outcome :=
  ⟨{ s with showAddPeerDialog_ := true }, [], .normal⟩

/-- Synchronous part of `updatePeers`: only the proxy call. -/
def updatePeers (s : PanelState) : Outcome :=
  ⟨s, [.getIpnsKeysList], .normal⟩

/-- The `then` callback of `updatePeers`, run when `getIpnsKeysList`
resolves with `keys`. `JSON.parse` is evaluated before the assignment, so a
`SyntaxError` leaves every field as it was. -/
def updatePeers_callback (s : PanelState) (keys : JsResult) : Outcome :=
  if keys.not then ⟨s, [], .normal⟩
  else
    match JSON.parse keys.toText with
    | .error e => ⟨s, [], .throw e⟩
    | .ok v => ⟨toggleUILayout { s with keys_ := some v } true, [], .normal⟩

def onLoad_ (s : PanelState) : Outcome := updatePeers s

def onAddPeerDialogClosed_ (s : PanelState) : Outcome :=
  updatePeers { s with showAddPeerDialog_ := false }

/-- Synchronous part of `onPeerDeleteTapped_`; `confirmed` is the answer of
`window.confirm`. -/
def onPeerDeleteTapped_ (s : PanelState) (name_to_remove : JsString) (confirmed : Bool) :
    Outcome :=
  if !confirmed then ⟨s, [], .normal⟩
  else ⟨s, [.removeIpnsKey name_to_remove], .normal⟩

/-- The `then` callback of `onPeerDeleteTapped_`, run when `removeIpnsKey`
resolves with `removed_name`. -/
def onPeerDeleteTapped_callback (s : PanelState) (name_to_remove : JsString)
    (removed_name : JsResult) : Outcome :=
  if removed_name.not then ⟨s, [], .normal⟩
  else if removed_name = .str name_to_remove then updatePeers s
  else ⟨s, [], .normal⟩

/-! ## Flows: a handler followed by the resolution of the call it issued -/

/-- Run `second` after `first`; the calls are concatenated. A body that threw
is followed by nothing. -/
def Outcome.andThen (first : Outcome) (second : PanelState → Outcome) : Outcome :=
  match first.completion with
  | .throw e => ⟨first.state, first.calls, .throw e⟩
  | .normal =>
    let o := second first.state
    ⟨o.state, first.calls ++ o.calls, o.completion⟩

/-- `onStartNodeKeyTap_`, then `launchIPFSService` resolves with `success`. -/
def startServiceFlow (s : PanelState) (success : Bool) : Outcome :=
  (onStartNodeKeyTap_ s).andThen fun s1 => onStartNodeKeyTap_callback s1 success

/-- `updatePeers`, then `getIpnsKeysList` resolves with `keys`. -/
def updatePeersFlow (s : PanelState) (keys : JsResult) : Outcome :=
  (updatePeers s).andThen fun s1 => updatePeers_callback s1 keys

/-- `onAddPeerDialogClosed_`, then `getIpnsKeysList` resolves with `keys`. -/
def addPeerDialogClosedFlow (s : PanelState) (keys : JsResult) : Outcome :=
  (onAddPeerDialogClosed_ s).andThen fun s1 => updatePeers_callback s1 keys

/-- `onPeerDeleteTapped_`, then (when `removeIpnsKey` was called) that call
resolves with `removed_name`. -/
def peerDeleteFlow (s : PanelState) (name_to_remove : JsString) (confirmed : Bool)
    (removed_name : JsResult) : Outcome :=
  let o := onPeerDeleteTapped_ s name_to_remove confirmed
  if ProxyCall.removeIpnsKey name_to_remove ∈ o.calls then
    o.andThen fun s1 => onPeerDeleteTapped_callback s1 name_to_remove removed_name
  else o

/-- The completed transitions of the panel. -/
inductive Transition where
  | statusChanged (launched : Bool)
  | startService (success : Bool)
  | peersUpdated (keys : JsResult)
  | addKeyTap
  | addPeerDialogClosed (keys : JsResult)

/-- State after a completed transition. -/
def Transition.apply (t : Transition) (s : PanelState) : PanelState :=
  match t with
  | .statusChanged launched => (statusChangedListener s launched).state
  | .startService success => (startServiceFlow s success).state
  | .peersUpdated keys => (updatePeersFlow s keys).state
  | .addKeyTap => (onAddKeyTap_ s).state
  | .addPeerDialogClosed keys => (addPeerDialogClosedFlow s keys).state

/-- States the panel can be in when a transition has settled: the state
after `ready()` on the defaults, and every state a completed transition
leads to from there. -/
inductive Reachable : PanelState → Prop where
  | ready : Reachable (ready defaults).state
  | step (t : Transition) {s : PanelState} : Reachable s → Reachable (t.apply s)

/-- The launch button is enabled exactly when the node is not launched. -/
def LaunchInv (s : PanelState) : Prop :=
  s.launchNodeButtonEnabled_ = !s.localNodeLaunched

/-- State after a sequence of status-changed events. -/
def afterStatusEvents (s : PanelState) (events : List Bool) : PanelState :=
  events.foldl (fun st launched => (statusChangedListener st launched).state) s

/-! ## Pending start-service calls -/

/-- The panel together with the number of `launchIPFSService` promises that
have not resolved yet. -/
structure Sys where
  panel : PanelState
  pending : Nat

/-- The handler `onStartNodeKeyTap_` runs. -/
def Sys.tap (σ : Sys) : Sys :=
  let o := onStartNodeKeyTap_ σ.panel
  ⟨o.state, σ.pending + o.calls.count .launchIPFSService⟩

/-- One pending `launchIPFSService` promise resolves with `success`; with
none pending there is nothing to resolve. -/
def Sys.resolve (σ : Sys) (success : Bool) : Sys :=
  if σ.pending = 0 then σ
  else ⟨(onStartNodeKeyTap_callback σ.panel success).state, σ.pending - 1⟩

/-- Modelled from the spec: the launch control of the view, which is not in
the source file. It is disabled while `launchNodeButtonEnabled_` is false,
and a click on a disabled control does not reach the handler. -/
def Sys.click (σ : Sys) : Sys :=
  if σ.panel.launchNodeButtonEnabled_ then σ.tap else σ

inductive SysEvent where
  | click
  | resolve (success : Bool)

def Sys.step (σ : Sys) : SysEvent → Sys
  | .click => σ.click
  | .resolve success => σ.resolve success

def Sys.run (σ : Sys) (events : List SysEvent) : Sys :=
  events.foldl Sys.step σ

/-- The panel after `ready()`, with no call pending. -/
def Sys.init : Sys := ⟨(ready defaults).state, 0⟩

/-- What holds between clicks and resolutions when the control is the gate:
at most one call is pending, and while one is pending the button is
disabled. -/
def GateInv (σ : Sys) : Prop :=
  σ.pending ≤ 1 ∧ (σ.pending = 1 → σ.panel.launchNodeButtonEnabled_ = false)

/-! ## Shared lemmas -/

theorem toggleUILayout_launchInv (s : PanelState) (launched : Bool) :
    LaunchInv (toggleUILayout s launched) := by
  cases launched <;> simp [LaunchInv, toggleUILayout]

theorem updatePeers_callback_launchInv (s : PanelState) (keys : JsResult)
    (h : LaunchInv s) : LaunchInv (updatePeers_callback s keys).state := by
  unfold updatePeers_callback
  split
  · exact h
  · split
    · exact h
    · exact toggleUILayout_launchInv _ true

theorem Transition.apply_launchInv (t : Transition) (s : PanelState) (h : LaunchInv s) :
    LaunchInv (t.apply s) := by
  cases t with
  | statusChanged launched => exact toggleUILayout_launchInv s launched
  | startService success => exact toggleUILayout_launchInv _ success
  | peersUpdated keys => exact updatePeers_callback_launchInv s keys h
  | addKeyTap => exact h
  | addPeerDialogClosed keys =>
    exact updatePeers_callback_launchInv _ keys h

theorem afterStatusEvents_launchInv (events : List Bool) :
    ∀ s : PanelState, events ≠ [] → LaunchInv (afterStatusEvents s events) := by
  induction events with
  | nil => intro s h; exact absurd rfl h
  | cons b rest ih =>
    intro s _
    cases rest with
    | nil => exact toggleUILayout_launchInv s b
    | cons b2 rest2 =>
      exact ih (statusChangedListener s b).state (List.cons_ne_nil b2 rest2)

theorem Sys.step_gateInv (σ : Sys) (ev : SysEvent) (h : GateInv σ) :
    GateInv (σ.step ev) := by
  obtain ⟨h1, h2⟩ := h
  cases ev with
  | click =>
    simp only [Sys.step, Sys.click]
    split
    · rename_i hen
      have hp : σ.pending = 0 := by
        rcases Nat.lt_or_ge σ.pending 1 with hlt | hge
        · omega
        · have : σ.pending = 1 := by omega
          rw [h2 this] at hen
          exact absurd hen (by decide)
      simp [GateInv, Sys.tap, onStartNodeKeyTap_, hp]
    · exact ⟨h1, h2⟩
  | resolve success =>
    simp only [Sys.step, Sys.resolve]
    split
    · exact ⟨h1, h2⟩
    · refine ⟨by simp only []; omega, ?_⟩
      intro hc
      simp only [] at hc
      omega

theorem Sys.run_gateInv (events : List SysEvent) :
    ∀ σ : Sys, GateInv σ → GateInv (σ.run events) := by
  induction events with
  | nil => intro σ h; exact h
  | cons ev rest ih =>
    intro σ h
    exact ih (σ.step ev) (Sys.step_gateInv σ ev h)

theorem onPeerDeleteTapped_callback_state (s : PanelState) (n : JsString) (r : JsResult) :
    (onPeerDeleteTapped_callback s n r).state = s := by
  unfold onPeerDeleteTapped_callback
  split
  · rfl
  · split <;> rfl

theorem onPeerDeleteTapped_callback_calls (s : PanelState) (n : JsString) (r : JsResult) :
    (onPeerDeleteTapped_callback s n r).calls =
      if r.not = true then [] else if r = .str n then [.getIpnsKeysList] else [] := by
  unfold onPeerDeleteTapped_callback
  split
  · rfl
  · split <;> rfl

theorem peerDeleteFlow_calls_chain (s : PanelState) (n : JsString) (confirmed : Bool)
    (r : JsResult) :
    (peerDeleteFlow s n confirmed r).calls =
      (if confirmed = false then []
       else if r.not = true then [.removeIpnsKey n]
       else if r = .str n then [.removeIpnsKey n, .getIpnsKeysList]
       else [.removeIpnsKey n]) := by
  cases confirmed with
  | false => rfl
  | true =>
    simp only [peerDeleteFlow, onPeerDeleteTapped_, Outcome.andThen]
    simp only [Bool.not_true, Bool.false_eq_true, if_false, List.mem_singleton, if_true,
      onPeerDeleteTapped_callback_calls, List.singleton_append]
    cases hn : r.not with
    | true => simp
    | false =>
      by_cases hr : r = .str n
      · simp [hr]
      · simp [hr]

/-! ## The claims -/

/-- C1: in every state reachable from `ready()` on the declared defaults by
completed transitions (a status-changed event, a start-service click with its
resolution, `updatePeers` with its resolution, `onAddKeyTap_`,
`onAddPeerDialogClosed_` with its list-keys resolution) the launch button is
enabled exactly when the node is not launched; and after each event of every
sequence of status-changed events (the events `before` and then one more),
from such a state or from the defaults, the same holds. -/
theorem launchInv_of_reachable (s : PanelState) (h : Reachable s) :
    s.launchNodeButtonEnabled_ = (!s.localNodeLaunched) ∧
    (∀ (before : List Bool) (launched : Bool),
      (afterStatusEvents s (before ++ [launched])).launchNodeButtonEnabled_
        = !(afterStatusEvents s (before ++ [launched])).localNodeLaunched) ∧
    (∀ (before : List Bool) (launched : Bool),
      (afterStatusEvents defaults (before ++ [launched])).launchNodeButtonEnabled_
        = !(afterStatusEvents defaults (before ++ [launched])).localNodeLaunched) := by
  refine ⟨?_, ?_, ?_⟩
  · induction h with
    | ready => exact toggleUILayout_launchInv defaults defaults.localNodeLaunched
    | step t _ ih => exact Transition.apply_launchInv t _ ih
  · intro before launched
    exact afterStatusEvents_launchInv _ s (by simp)
  · intro before launched
    exact afterStatusEvents_launchInv _ defaults (by simp)

/-- C1, at the state reached by `ready()`, a failed start, a list-keys
resolution with `null` and a status change to launched. -/
theorem launchInv_of_reachable_witness :
    ((Transition.statusChanged true).apply ((Transition.peersUpdated .null).apply
      ((Transition.startService false).apply (ready defaults).state))).launchNodeButtonEnabled_
      = false ∧
    ((Transition.statusChanged true).apply ((Transition.peersUpdated .null).apply
      ((Transition.startService false).apply (ready defaults).state))).localNodeLaunched
      = true :=
  have h := (launchInv_of_reachable _
    (Reachable.step (.statusChanged true) (Reachable.step (.peersUpdated .null)
      (Reachable.step (.startService false) Reachable.ready)))).1
  ⟨h.trans rfl, rfl⟩

/-- C2: `toggleUILayout(b)` yields the state with
`launchNodeButtonEnabled_ = !b`, `localNodeLaunched = b`,
`importKeysError_ = false`, `localNodeLaunchError_` cleared only when `b`,
`showAddPeerDialog_` cleared only when not `b`, and every other field as
before; so a change to false closes the dialog and a change to true leaves it
as it was. -/
theorem toggleUILayout_fields (s : PanelState) (b : Bool) :
    toggleUILayout s b =
      { keys := s.keys
        keys_ := s.keys_
        localNodeMethod := s.localNodeMethod
        localNodeLaunched := b
        launchNodeButtonEnabled_ := !b
        localNodeLaunchError_ := if b then false else s.localNodeLaunchError_
        importKeysError_ := false
        showAddPeerDialog_ := if b then s.showAddPeerDialog_ else false } ∧
    (statusChangedListener s b).state = toggleUILayout s b ∧
    (toggleUILayout s false).showAddPeerDialog_ = false ∧
    (toggleUILayout s true).showAddPeerDialog_ = s.showAddPeerDialog_ := by
  cases b <;> simp [toggleUILayout, statusChangedListener, onServiceLaunched]

/-- C3: after `onStartNodeKeyTap_` and the resolution of `launchIPFSService`
with `b`, `localNodeLaunched = b`, `localNodeLaunchError_ = !b` and
`launchNodeButtonEnabled_ = !b`. -/
theorem startServiceFlow_fields (s : PanelState) (b : Bool) :
    (startServiceFlow s b).state.localNodeLaunched = b ∧
    (startServiceFlow s b).state.localNodeLaunchError_ = (!b) ∧
    (startServiceFlow s b).state.launchNodeButtonEnabled_ = (!b) ∧
    (startServiceFlow s false).state.localNodeLaunched = false ∧
    (startServiceFlow s false).state.localNodeLaunchError_ = true ∧
    (startServiceFlow s false).state.launchNodeButtonEnabled_ = true ∧
    (startServiceFlow s true).state.localNodeLaunched = true ∧
    (startServiceFlow s true).state.localNodeLaunchError_ = false ∧
    (startServiceFlow s true).state.launchNodeButtonEnabled_ = false := by
  cases b <;>
    simp [startServiceFlow, Outcome.andThen, onStartNodeKeyTap_,
      onStartNodeKeyTap_callback, onServiceLaunched, toggleUILayout]

/-- C4: the code at the list-keys result
`[{"name":"self"},{"name":"alice"}]`: the parsed array goes to the field
`keys_`; the declared property `keys` is not written, by this or by any other
list-keys resolution; the node is marked launched and the button disabled.
For every result, either no field is written or the parsed value is in
`keys_` with the node marked launched. -/
theorem updatePeers_keys_property_not_written (s : PanelState) (r : JsResult) :
    (updatePeersFlow s r).state.keys = s.keys ∧
    ((updatePeersFlow s r).state = s ∨
      ∃ v, JSON.parse r.toText = .ok v ∧
        (updatePeersFlow s r).state.keys_ = some v ∧
        (updatePeersFlow s r).state.localNodeLaunched = true ∧
        (updatePeersFlow s r).state.launchNodeButtonEnabled_ = false) ∧
    (updatePeersFlow defaults
      (.str (utf16 "[\x7b\"name\":\"self\"\x7d,\x7b\"name\":\"alice\"\x7d]"))).state.keys = [] ∧
    (updatePeersFlow defaults
      (.str (utf16 "[\x7b\"name\":\"self\"\x7d,\x7b\"name\":\"alice\"\x7d]"))).state.keys_ =
        some (.arr [.obj [(utf16 "name", .str (utf16 "self"))],
                    .obj [(utf16 "name", .str (utf16 "alice"))]]) ∧
    (updatePeersFlow defaults
      (.str (utf16 "[\x7b\"name\":\"self\"\x7d,\x7b\"name\":\"alice\"\x7d]"))).state.localNodeLaunched
        = true ∧
    (updatePeersFlow defaults
      (.str (utf16 "[\x7b\"name\":\"self\"\x7d,\x7b\"name\":\"alice\"\x7d]"))).state.launchNodeButtonEnabled_
        = false := by
  refine ⟨?_, ?_, rfl, rfl, rfl, rfl⟩
  · simp only [updatePeersFlow, Outcome.andThen, updatePeers]
    unfold updatePeers_callback
    split
    · rfl
    · split
      · rfl
      · simp [toggleUILayout]
  · simp only [updatePeersFlow, Outcome.andThen, updatePeers]
    unfold updatePeers_callback
    split
    · exact Or.inl rfl
    · cases hp : JSON.parse r.toText with
      | error e => exact Or.inl rfl
      | ok v => exact Or.inr ⟨v, rfl, by simp [toggleUILayout]⟩

/-- C5: the synchronous part of `onStartNodeKeyTap_` sets
`launchNodeButtonEnabled_ = false`, leaves every other field as it was and
issues exactly one `launchIPFSService` call. -/
theorem onStartNodeKeyTap_sync (s : PanelState) :
    (onStartNodeKeyTap_ s).state.launchNodeButtonEnabled_ = false ∧
    (onStartNodeKeyTap_ s).state.localNodeLaunched = s.localNodeLaunched ∧
    (onStartNodeKeyTap_ s).state.localNodeLaunchError_ = s.localNodeLaunchError_ ∧
    (onStartNodeKeyTap_ s).state.importKeysError_ = s.importKeysError_ ∧
    (onStartNodeKeyTap_ s).state.showAddPeerDialog_ = s.showAddPeerDialog_ ∧
    (onStartNodeKeyTap_ s).state.keys = s.keys ∧
    (onStartNodeKeyTap_ s).state.keys_ = s.keys_ ∧
    (onStartNodeKeyTap_ s).state.localNodeMethod = s.localNodeMethod ∧
    (onStartNodeKeyTap_ s).calls = [.launchIPFSService] ∧
    (∀ b : Bool, (startServiceFlow s b).calls = [.launchIPFSService]) := by
  refine ⟨rfl, rfl, rfl, rfl, rfl, rfl, rfl, rfl, rfl, ?_⟩
  intro b
  simp [startServiceFlow, Outcome.andThen, onStartNodeKeyTap_, onStartNodeKeyTap_callback]

/-- C6: the proxy calls of `onPeerDeleteTapped_` for the name `n`, the cases
read in the order the handler takes them: none when the confirmation is
declined; `removeIpnsKey(n)` alone when it is accepted and remove-key
resolves with `null`, `undefined` or the empty string; `removeIpnsKey(n)`
followed by one `getIpnsKeysList` when it then resolves with `n`; and
`removeIpnsKey(n)` alone when it resolves with any other non-empty name.
Neither the handler nor its callback writes a field. For the name `alice`:
declined gives no call, a resolution with `alice` gives exactly one refresh,
a resolution with the empty string gives none. -/
theorem peerDeleteFlow_calls (s : PanelState) (n : JsString) (confirmed : Bool)
    (r : JsResult) :
    (peerDeleteFlow s n confirmed r).calls =
      (if confirmed = false then []
       else if r.not = true then [.removeIpnsKey n]
       else if r = .str n then [.removeIpnsKey n, .getIpnsKeysList]
       else [.removeIpnsKey n]) ∧
    (onPeerDeleteTapped_ s n confirmed).state = s ∧
    (onPeerDeleteTapped_callback s n r).state = s ∧
    (peerDeleteFlow s n confirmed r).state = s ∧
    (peerDeleteFlow s (utf16 "alice") false r).calls = [] ∧
    (peerDeleteFlow s (utf16 "alice") true (.str (utf16 "alice"))).calls
      = [.removeIpnsKey (utf16 "alice"), .getIpnsKeysList] ∧
    (peerDeleteFlow s (utf16 "alice") true (.str [])).calls
      = [.removeIpnsKey (utf16 "alice")] ∧
    (peerDeleteFlow s (utf16 "alice") true .null).calls
      = [.removeIpnsKey (utf16 "alice")] ∧
    (peerDeleteFlow s (utf16 "alice") true (.str (utf16 "bob"))).calls
      = [.removeIpnsKey (utf16 "alice")] := by
  have hcb := onPeerDeleteTapped_callback_state s n r
  refine ⟨peerDeleteFlow_calls_chain s n confirmed r, ?_, hcb, ?_, ?_, ?_, ?_, ?_, ?_⟩
  · cases confirmed <;> rfl
  · cases confirmed with
    | false => rfl
    | true =>
      simp only [peerDeleteFlow, onPeerDeleteTapped_, Outcome.andThen]
      simp only [Bool.not_true, Bool.false_eq_true, if_false, List.mem_singleton, if_true]
      exact hcb
  · rfl
  · rw [peerDeleteFlow_calls_chain]; decide
  · rw [peerDeleteFlow_calls_chain]; decide
  · rw [peerDeleteFlow_calls_chain]; decide
  · rw [peerDeleteFlow_calls_chain]; decide

/-- C7: when list-keys resolves with `null`, `undefined` or the empty string,
the `updatePeers` callback writes nothing: `keys`, `keys_` and every flag
are as before, and no further call is issued. -/
theorem updatePeers_empty_result (s : PanelState) :
    updatePeers_callback s .null = ⟨s, [], .normal⟩ ∧
    updatePeers_callback s .undefined = ⟨s, [], .normal⟩ ∧
    updatePeers_callback s (.str []) = ⟨s, [], .normal⟩ ∧
    (updatePeersFlow s .null).state = s ∧
    (updatePeersFlow s .undefined).state = s ∧
    (updatePeersFlow s (.str [])).state = s :=
  ⟨rfl, rfl, rfl, rfl, rfl, rfl⟩

/-- C8: `onAddPeerDialogClosed_` sets `showAddPeerDialog_ = false`, issues
exactly one `getIpnsKeysList` call, and until that call resolves every other
field is as before. -/
theorem onAddPeerDialogClosed_sync (s : PanelState) :
    (onAddPeerDialogClosed_ s).state.showAddPeerDialog_ = false ∧
    (onAddPeerDialogClosed_ s).calls = [.getIpnsKeysList] ∧
    (onAddPeerDialogClosed_ s).calls.count .getIpnsKeysList = 1 ∧
    (onAddPeerDialogClosed_ s).state.keys = s.keys ∧
    (onAddPeerDialogClosed_ s).state.keys_ = s.keys_ ∧
    (onAddPeerDialogClosed_ s).state.localNodeMethod = s.localNodeMethod ∧
    (onAddPeerDialogClosed_ s).state.localNodeLaunched = s.localNodeLaunched ∧
    (onAddPeerDialogClosed_ s).state.launchNodeButtonEnabled_ = s.launchNodeButtonEnabled_ ∧
    (onAddPeerDialogClosed_ s).state.localNodeLaunchError_ = s.localNodeLaunchError_ ∧
    (onAddPeerDialogClosed_ s).state.importKeysError_ = s.importKeysError_ ∧
    (∀ r : JsResult, (addPeerDialogClosedFlow s r).calls = [.getIpnsKeysList]) := by
  refine ⟨rfl, rfl, by simp [onAddPeerDialogClosed_, updatePeers], rfl, rfl, rfl, rfl, rfl, rfl,
    rfl, ?_⟩
  intro r
  simp only [addPeerDialogClosedFlow, Outcome.andThen, onAddPeerDialogClosed_, updatePeers]
  unfold updatePeers_callback
  split
  · rfl
  · split <;> rfl

/-- C9, as stated, fails: when list-keys resolves with the string `x`, which
is not well-formed JSON, the `updatePeers` callback throws a `SyntaxError`. -/
theorem updatePeers_callback_throws :
    (updatePeers_callback defaults (.str (utf16 "x"))).completion = .throw .syntaxError ∧
    (updatePeers_callback defaults (.str (utf16 "x"))).completion ≠ .normal := by
  refine ⟨rfl, ?_⟩
  decide

/-- C9, amended: every handler, the start-service callback and the remove-key
callback complete normally in every state and for every resolved value; the
`updatePeers` callback completes normally exactly when list-keys resolves
with `null`, `undefined`, the empty string or a well-formed JSON text, and
otherwise throws a `SyntaxError` without writing a field or issuing a call. -/
theorem completion_of_handlers (s : PanelState) (launched success confirmed : Bool)
    (name : JsString) (r : JsResult) :
    (statusChangedListener s launched).completion = .normal ∧
    (ready s).completion = .normal ∧
    (onLoad_ s).completion = .normal ∧
    (onStartNodeKeyTap_ s).completion = .normal ∧
    (onStartNodeKeyTap_callback s success).completion = .normal ∧
    (onAddKeyTap_ s).completion = .normal ∧
    (updatePeers s).completion = .normal ∧
    (onAddPeerDialogClosed_ s).completion = .normal ∧
    (onPeerDeleteTapped_ s name confirmed).completion = .normal ∧
    (onPeerDeleteTapped_callback s name r).completion = .normal ∧
    ((updatePeers_callback s r).completion = .normal ↔
      (r.not = true ∨ ∃ v, JSON.parse r.toText = .ok v)) ∧
    ((updatePeers_callback s r).completion = .normal ∨
      updatePeers_callback s r = ⟨s, [], .throw .syntaxError⟩) := by
  refine ⟨rfl, rfl, rfl, rfl, rfl, rfl, rfl, rfl, ?_, ?_, ?_, ?_⟩
  · cases confirmed <;> rfl
  · unfold onPeerDeleteTapped_callback
    split
    · rfl
    · split <;> rfl
  · unfold updatePeers_callback
    cases hn : r.not with
    | true => simp
    | false =>
      cases hp : JSON.parse r.toText with
      | error e => simp
      | ok v => simp
  · unfold updatePeers_callback
    split
    · exact Or.inl rfl
    · cases hp : JSON.parse r.toText with
      | error e => cases e; exact Or.inr rfl
      | ok v => exact Or.inl rfl

/-- C10, as stated, fails: invoked again while its first `launchIPFSService`
call is pending, `onStartNodeKeyTap_` issues a second call, and two calls are
then pending. -/
theorem second_tap_issues_call :
    (onStartNodeKeyTap_ (onStartNodeKeyTap_ (ready defaults).state).state).calls
      = [.launchIPFSService] ∧
    Sys.init.tap.pending = 1 ∧
    Sys.init.tap.tap.pending = 2 := by
  refine ⟨rfl, ?_, ?_⟩ <;> decide

/-- C10, amended: `onStartNodeKeyTap_` has no guard of its own, every
invocation issues one more `launchIPFSService` call and leaves
`launchNodeButtonEnabled_` false; when the handler is reached only while
`launchNodeButtonEnabled_` is true (the control is the gate), then along
every sequence of clicks and resolutions from the state after `ready()` at
most one start-service call is pending, and the button is disabled while one
is. -/
theorem pending_le_one_of_gated (s : PanelState) (σ : Sys) (events : List SysEvent) :
    (onStartNodeKeyTap_ s).calls = [.launchIPFSService] ∧
    (onStartNodeKeyTap_ s).state.launchNodeButtonEnabled_ = false ∧
    σ.tap.pending = σ.pending + 1 ∧
    (Sys.init.run events).pending ≤ 1 ∧
    ((Sys.init.run events).pending = 0 ∨
      (Sys.init.run events).panel.launchNodeButtonEnabled_ = false) := by
  have h : GateInv (Sys.init.run events) :=
    Sys.run_gateInv events Sys.init ⟨by decide, by intro h; exact absurd h (by decide)⟩
  refine ⟨rfl, rfl, ?_, h.1, ?_⟩
  · simp [Sys.tap, onStartNodeKeyTap_]
  · rcases Nat.eq_zero_or_pos (Sys.init.run events).pending with h0 | hpos
    · exact Or.inl h0
    · exact Or.inr (h.2 (by have := h.1; omega))

end IpfsPeers
